import Mathlib

/-!
Verification of the conversational booking/query core.

Python strings are modelled as `List Char` (ASCII fragment). External
collaborators (the text-completion service, the `email_validator` package,
the `dateutil` fuzzy parser, and the clock) are modelled as explicit
parameters: a completion result is `Except Unit (List Char)` (`.error` =
the call raised), the email checker is `List Char → Option (List Char)`,
the fuzzy date parser is `List Char → Option Nat` (`none` = it raised),
and "now" is a proleptic-Gregorian ordinal day number (`datetime.toordinal`,
day 1 = 0001-01-01), which is all of `datetime.now()` the embedded code
observes.
-/

abbrev PyStr := List Char

/-- The apostrophe character, used in several source strings. -/
def apos : Char := Char.ofNat 39

/-- ASCII lowercasing, as Python `str.lower` on ASCII text. -/
def pyLowerChar (c : Char) : Char :=
  if 'A' ≤ c ∧ c ≤ 'Z' then Char.ofNat (c.toNat + 32) else c

def pyLower (s : PyStr) : PyStr := s.map pyLowerChar

/-- Python whitespace (`str.strip` default set / regex `\s`, ASCII fragment). -/
def isPySpace (c : Char) : Bool :=
  c = ' ' || c = '\t' || c = '\n' || c = '\r' || c = '\x0b' || c = '\x0c'

/-- Python `str.strip()`. -/
def pyStrip (s : PyStr) : PyStr :=
  ((s.dropWhile isPySpace).reverse.dropWhile isPySpace).reverse

/-- `p` occurs at the head of `s`. -/
def leadsWith : PyStr → PyStr → Bool
  | [], _ => true
  | _ :: _, [] => false
  | a :: p, b :: s => a = b && leadsWith p s

/-- Python substring containment `p in s`. -/
def containsSub : PyStr → PyStr → Bool
  | [], p => p.isEmpty
  | s@(_ :: t), p => leadsWith p s || containsSub t p

/-- `ValidationResult`: Python `{"valid": True, "value": v}` /
`{"valid": False, "error": e}`. -/
inductive VRes where
  | ok (value : PyStr)
  | err (msg : PyStr)
deriving DecidableEq

/-- Characters admitted by the name regex class `[a-zA-Z\s\.\-\']`. -/
def nameClassChar (c : Char) : Bool :=
  ('a' ≤ c && c ≤ 'z') || ('A' ≤ c && c ≤ 'Z') || isPySpace c ||
    c = '.' || c = '-' || c = apos

/-- Python `re.match(r"^[a-zA-Z\s\.\-\']+$", s)` as a Boolean.  Python `$`
matches at the end of the string or just before a trailing newline, so the
regex accepts `s` iff `s` itself, or `s` minus a trailing newline, is a
non-empty run of class characters. -/
def nameRegexAccepts (s : PyStr) : Bool :=
  (s :: (if s.getLast? = some '\n' then [s.dropLast] else [])).any
    (fun t => !t.isEmpty && t.all nameClassChar)

def nameErrShort : PyStr :=
  ("Name must be at least 2 characters long and non-empty.").data

def nameErrChars : PyStr :=
  ("Name can only contain letters, spaces, and basic punctuation.").data

/-- `tools.validate_name`. -/
def validate_name (name : PyStr) : VRes :=
  if name.isEmpty || (pyStrip name).length < 2 then .err nameErrShort
  else if !nameRegexAccepts name then .err nameErrChars
  else .ok (pyStrip name)

/-- The separator set stripped by `validate_phone`: regex `[\s\-\(\)\+]`. -/
def sepChar (c : Char) : Bool :=
  isPySpace c || c = '-' || c = '(' || c = ')' || c = '+'

def cleanPhone (s : PyStr) : PyStr := s.filter (fun c => !sepChar c)

/-- Python `str.isdigit` (ASCII fragment): false on the empty string. -/
def pyIsDigitStr (s : PyStr) : Bool := !s.isEmpty && s.all Char.isDigit

def phoneErrDigits : PyStr := ("Phone number must contain only digits.").data

def phoneErrLen : PyStr :=
  ("Phone number must be between 10 and 15 digits.").data

/-- `tools.validate_phone` (`cleaned_phone` is the local `cleanPhone phone`). -/
def validate_phone (phone : PyStr) : VRes :=
  if !pyIsDigitStr (cleanPhone phone) then .err phoneErrDigits
  else if (cleanPhone phone).length < 10 || (cleanPhone phone).length > 15 then
    .err phoneErrLen
  else .ok (cleanPhone phone)

theorem cleanPhone_nil : cleanPhone [] = [] := rfl

/-! ### Helper lemmas about the string model -/

theorem sepChar_not_digit {c : Char} (h : sepChar c = true) : c.isDigit = false := by
  simp only [sepChar, isPySpace, Bool.or_eq_true, decide_eq_true_eq] at h
  repeat' rcases h with h | h
  all_goals decide

theorem clean_eq_digits : ∀ s : PyStr, (cleanPhone s).all Char.isDigit = true →
    cleanPhone s = s.filter Char.isDigit := by
  intro s
  induction s with
  | nil => intro _; rfl
  | cons c t ih =>
    intro h
    cases hc : sepChar c with
    | true =>
      have hd := sepChar_not_digit hc
      simp only [cleanPhone, List.filter_cons, hc, hd, Bool.not_true,
        Bool.false_eq_true, if_false] at *
      exact ih h
    | false =>
      simp only [cleanPhone, List.filter_cons, hc, Bool.not_false, if_true,
        List.all_cons, Bool.and_eq_true] at *
      obtain ⟨h1, h2⟩ := h
      simp only [h1, if_true]
      exact congrArg (List.cons c) (ih h2)

theorem pyStrip_subset (s : PyStr) : pyStrip s ⊆ s := by
  unfold pyStrip
  intro x hx
  rw [List.mem_reverse] at hx
  have h1 := (List.dropWhile_sublist (l := (s.dropWhile isPySpace).reverse)
    (p := isPySpace)).subset hx
  rw [List.mem_reverse] at h1
  exact (List.dropWhile_sublist (l := s) (p := isPySpace)).subset h1

theorem pyStrip_length_le (s : PyStr) : (pyStrip s).length ≤ s.length := by
  unfold pyStrip
  rw [List.length_reverse]
  calc ((s.dropWhile isPySpace).reverse.dropWhile isPySpace).length
      ≤ (s.dropWhile isPySpace).reverse.length :=
        (List.dropWhile_sublist _).length_le
    _ = (s.dropWhile isPySpace).length := List.length_reverse _
    _ ≤ s.length := (List.dropWhile_sublist _).length_le

theorem all_pyStrip {p : Char → Bool} {s : PyStr} (h : s.all p = true) :
    (pyStrip s).all p = true := by
  rw [List.all_eq_true] at h ⊢
  exact fun x hx => h x (pyStrip_subset s hx)

theorem nameRegex_eq (s : PyStr) :
    nameRegexAccepts s = (!s.isEmpty && s.all nameClassChar) := by
  unfold nameRegexAccepts
  cases hl : s.getLast? with
  | none => simp
  | some c =>
    by_cases hc : c = '\n'
    · subst hc
      rw [if_pos rfl]
      simp only [List.any_cons, List.any_nil, Bool.or_false]
      have hs : s.dropLast ++ ['\n'] = s := List.dropLast_append_getLast? _ hl
      cases hA : (!s.isEmpty && s.all nameClassChar) with
      | true => simp [hA]
      | false =>
        rw [Bool.false_or]
        cases hB : (!s.dropLast.isEmpty && s.dropLast.all nameClassChar) with
        | false => rfl
        | true =>
          exfalso
          rw [Bool.and_eq_true] at hB
          obtain ⟨hB1, hB2⟩ := hB
          have hall : s.all nameClassChar = true := by
            rw [← hs, List.all_append, hB2]
            decide
          have hne : s.isEmpty = false := by
            rw [← hs]
            simp
          rw [hne, hall] at hA
          simp at hA
    · rw [if_neg (by simp [hl, hc])]
      simp

/-- C7 helper: the success condition of `validate_name`. -/
theorem validate_name_ok_iff (s : PyStr) :
    validate_name s = VRes.ok (pyStrip s) ↔
      2 ≤ (pyStrip s).length ∧ s.all nameClassChar = true := by
  unfold validate_name
  constructor
  · intro h
    split at h
    · exact absurd h (by simp)
    · split at h
      · exact absurd h (by simp)
      · rename_i h1 h2
        simp only [Bool.or_eq_true, decide_eq_true_eq, not_or] at h1
        refine ⟨by omega, ?_⟩
        have h2' : nameRegexAccepts s = true := by
          revert h2
          cases nameRegexAccepts s <;> simp
        rw [nameRegex_eq, Bool.and_eq_true] at h2'
        exact h2'.2
  · rintro ⟨h1, h2⟩
    have hne : s ≠ [] := by
      intro he
      subst he
      simp [pyStrip] at h1
    have hie : s.isEmpty = false := by
      cases s with
      | nil => exact absurd rfl hne
      | cons a t => rfl
    rw [if_neg (by simp only [hie, Bool.false_or, decide_eq_true_eq]; omega),
      if_neg (by simp [nameRegex_eq, hie, h2])]

/-- C7: `validate_name` succeeds with value the trimmed input iff the trimmed
input has length at least 2 and the string contains only letters, whitespace,
periods, hyphens, and apostrophes; on success the value is the trimmed input. -/
theorem c7_validate_name (s : PyStr) :
    (validate_name s = VRes.ok (pyStrip s) ↔
      2 ≤ (pyStrip s).length ∧ s.all nameClassChar = true) ∧
    ∀ v, validate_name s = VRes.ok v → v = pyStrip s := by
  refine ⟨validate_name_ok_iff s, fun v h => ?_⟩
  unfold validate_name at h
  split at h
  · exact absurd h (by simp)
  · split at h
    · exact absurd h (by simp)
    · injection h with h
      exact h.symm

/-- C6: `validate_phone` first removes all whitespace, hyphens, parentheses and
plus signs; it succeeds iff the remaining string is all digits with length in
[10, 15], and on success the value is exactly the cleaned digit string, which
is the input's digits in order. -/
theorem c6_validate_phone (s : PyStr) :
    (validate_phone s = VRes.ok (cleanPhone s) ↔
      (cleanPhone s).all Char.isDigit = true ∧
        10 ≤ (cleanPhone s).length ∧ (cleanPhone s).length ≤ 15) ∧
    ∀ v, validate_phone s = VRes.ok v →
      v = cleanPhone s ∧ v = s.filter Char.isDigit := by
  unfold validate_phone
  constructor
  · constructor
    · intro h
      split at h
      · exact absurd h (by simp)
      · split at h
        · exact absurd h (by simp)
        · rename_i h1 h2
          have h1' : pyIsDigitStr (cleanPhone s) = true := by
            revert h1
            cases pyIsDigitStr (cleanPhone s) <;> simp
          unfold pyIsDigitStr at h1'
          rw [Bool.and_eq_true] at h1'
          simp only [Bool.or_eq_true, decide_eq_true_eq, not_or] at h2
          exact ⟨h1'.2, by omega, by omega⟩
    · rintro ⟨h1, h2, h3⟩
      have hne : (cleanPhone s).isEmpty = false := by
        cases hcl : cleanPhone s with
        | nil => rw [hcl] at h2; simp at h2
        | cons a t => rfl
      rw [if_neg (by simp [pyIsDigitStr, hne, h1]),
        if_neg (by simp only [Bool.or_eq_true, decide_eq_true_eq, not_or]; omega)]
  · intro v h
    split at h
    · exact absurd h (by simp)
    · rename_i h1
      split at h
      · exact absurd h (by simp)
      · have h1' : pyIsDigitStr (cleanPhone s) = true := by
          revert h1
          cases pyIsDigitStr (cleanPhone s) <;> simp
        have hall : (cleanPhone s).all Char.isDigit = true := by
          unfold pyIsDigitStr at h1'
          rw [Bool.and_eq_true] at h1'
          exact h1'.2
        injection h with h
        exact ⟨h.symm, h.symm.trans (clean_eq_digits s hall)⟩

/-- Witness for C6 at the concrete phone string "(555) 123-4567". -/
theorem c6_validate_phone_witness :
    validate_phone (("(555) 123-4567").data) = VRes.ok (("5551234567").data) ∧
      ("5551234567").data = cleanPhone (("(555) 123-4567").data) := by
  have h := (c6_validate_phone (("(555) 123-4567").data)).1.mpr (by decide)
  constructor
  · rw [h]
    decide
  · decide

/-- Witness for C7 at the concrete name "  John Doe ". -/
theorem c7_validate_name_witness :
    validate_name (("  John Doe ").data) = VRes.ok (("John Doe").data) := by
  have h := (c7_validate_name (("  John Doe ").data)).1.mpr (by decide)
  rw [h]
  decide

/-! ### Date model

`datetime` values are modelled by their proleptic-Gregorian ordinal day
(`datetime.toordinal`, day 1 = 0001-01-01); adding a `timedelta` of `n` days
adds `n` to the ordinal, and `strftime` renders the civil date of the
ordinal. -/

/-- Python `weekday()` of an ordinal day: Monday = 0 (ordinal 1, 0001-01-01,
is a Monday). -/
def pyWeekday (o : Nat) : Nat := (o + 6) % 7

/-- Civil (proleptic Gregorian) date of an ordinal day as (year, month, day):
the standard days-to-civil algorithm, shifted so that day 1 = 0001-01-01. -/
def civilFromOrd (o : Nat) : Nat × Nat × Nat :=
  let z := o + 305
  let era := z / 146097
  let doe := z % 146097
  let yoe := (doe - doe / 1460 + doe / 36524 - doe / 146096) / 365
  let y := yoe + era * 400
  let doy := doe - (365 * yoe + yoe / 4 - yoe / 100)
  let mp := (5 * doy + 2) / 153
  let d := doy - (153 * mp + 2) / 5 + 1
  let m := if mp < 10 then mp + 3 else mp - 9
  (if m ≤ 2 then y + 1 else y, m, d)

def digitChar (n : Nat) : Char :=
  match n % 10 with
  | 0 => '0' | 1 => '1' | 2 => '2' | 3 => '3' | 4 => '4'
  | 5 => '5' | 6 => '6' | 7 => '7' | 8 => '8' | _ => '9'

def natDigitsGo : Nat → Nat → PyStr
  | 0, _ => []
  | fuel + 1, n =>
    if n < 10 then [digitChar n] else natDigitsGo fuel (n / 10) ++ [digitChar n]

/-- Decimal rendering of a natural number. -/
def natDigits (n : Nat) : PyStr := natDigitsGo (n + 1) n

def padZero (w : Nat) (s : PyStr) : PyStr := List.replicate (w - s.length) '0' ++ s

/-- `strftime("%Y-%m-%d")` of an ordinal day. -/
def fmtIso (o : Nat) : PyStr :=
  padZero 4 (natDigits (civilFromOrd o).1) ++ ['-'] ++
    padZero 2 (natDigits (civilFromOrd o).2.1) ++ ['-'] ++
    padZero 2 (natDigits (civilFromOrd o).2.2)

def monthNames : List PyStr :=
  [("January").data, ("February").data, ("March").data, ("April").data,
   ("May").data, ("June").data, ("July").data, ("August").data,
   ("September").data, ("October").data, ("November").data, ("December").data]

/-- `strftime("%B %d, %Y")` of an ordinal day. -/
def fmtHuman (o : Nat) : PyStr :=
  monthNames.getD ((civilFromOrd o).2.1 - 1) [] ++ [' '] ++
    padZero 2 (natDigits (civilFromOrd o).2.2) ++ [',', ' '] ++
    padZero 4 (natDigits (civilFromOrd o).1)

/-- Result of `extract_date_from_natural_language`: on success it carries the
canonical `value` and the human-readable `parsed_date`. -/
inductive DateRes where
  | ok (value parsed : PyStr)
  | err (msg : PyStr)
deriving DecidableEq

def dateErrMsg (text : PyStr) : PyStr :=
  ("Could not parse date from ").data ++ [apos] ++ text ++ [apos] ++
    (". Please try formats like ").data ++ [apos] ++ ("next Monday").data ++
    [apos] ++ (", ").data ++ [apos] ++ ("tomorrow").data ++ [apos] ++
    (", ").data ++ [apos] ++ ("in 3 days").data ++ [apos] ++ (", or ").data ++
    [apos] ++ ("YYYY-MM-DD").data ++ [apos] ++ (".").data

def digitsToNat (ds : PyStr) : Nat := ds.foldl (fun a c => a * 10 + (c.toNat - 48)) 0

/-- A match of `in\s+(\d+)\s+days?` anchored at the current position: the
character classes at each boundary are disjoint, so greedy runs are exact. -/
def inDaysHere (s : PyStr) : Option Nat :=
  match s with
  | 'i' :: 'n' :: rest =>
    let ws1 := rest.takeWhile isPySpace
    if ws1.isEmpty then none
    else
      let r1 := rest.drop ws1.length
      let ds := r1.takeWhile Char.isDigit
      if ds.isEmpty then none
      else
        let r2 := r1.drop ds.length
        let ws2 := r2.takeWhile isPySpace
        if ws2.isEmpty then none
        else
          match r2.drop ws2.length with
          | 'd' :: 'a' :: 'y' :: _ => some (digitsToNat ds)
          | _ => none
  | _ => none

/-- `re.search(r'in\s+(\d+)\s+days?', t)`: leftmost occurrence. -/
def inDaysSearch : PyStr → Option Nat
  | [] => none
  | s@(_ :: t) =>
    match inDaysHere s with
    | some n => some n
    | none => inDaysSearch t

/-- The `days_ahead` computation of the weekday rules: `target - weekday(now)`,
plus 7 when that is ≤ 0, added to today's ordinal. -/
def weekdayTarget (nowOrd target : Nat) : Nat :=
  ((nowOrd : Int) +
    (if (target : Int) - (pyWeekday nowOrd : Int) ≤ 0
      then (target : Int) - (pyWeekday nowOrd : Int) + 7
      else (target : Int) - (pyWeekday nowOrd : Int))).toNat

/-- The rule chain of `extract_date_from_natural_language`, applied to the
lowercased stripped text `t`; `fz` is the outcome of the fuzzy-parser call
(which the source applies to the raw text). -/
def dateRule (t : PyStr) (nowOrd : Nat) (fz : Option Nat) : Option Nat :=
  if t = ("today").data then some nowOrd
  else if t = ("tomorrow").data then some (nowOrd + 1)
  else if containsSub t (("next week").data) then some (nowOrd + 7)
  else if containsSub t (("next month").data) then some (nowOrd + 30)
  else if containsSub t (("next monday").data) || containsSub t (("coming monday").data) then
    some (weekdayTarget nowOrd 0)
  else if containsSub t (("next tuesday").data) || containsSub t (("coming tuesday").data) then
    some (weekdayTarget nowOrd 1)
  else if containsSub t (("next wednesday").data) || containsSub t (("coming wednesday").data) then
    some (weekdayTarget nowOrd 2)
  else if containsSub t (("next thursday").data) || containsSub t (("coming thursday").data) then
    some (weekdayTarget nowOrd 3)
  else if containsSub t (("next friday").data) || containsSub t (("coming friday").data) then
    some (weekdayTarget nowOrd 4)
  else if containsSub t (("next saturday").data) || containsSub t (("coming saturday").data) then
    some (weekdayTarget nowOrd 5)
  else if containsSub t (("next sunday").data) || containsSub t (("coming sunday").data) then
    some (weekdayTarget nowOrd 6)
  else if containsSub t (("in").data) && containsSub t (("day").data) then
    match inDaysSearch t with
    | some n => some (nowOrd + n)
    | none => fz
  else fz

/-- `tools.extract_date_from_natural_language`, with the `dateutil` fuzzy
parser and the clock as parameters. -/
def extract_date_from_natural_language (fuzzy : PyStr → Option Nat)
    (nowOrd : Nat) (date_text : PyStr) : DateRes :=
  match dateRule (pyStrip (pyLower date_text)) nowOrd (fuzzy date_text) with
  | some o => .ok (fmtIso o) (fmtHuman o)
  | none => .err (dateErrMsg date_text)

/-- C9: for every fixed reference "now", resolving "tomorrow" succeeds with
the ordinal `now + 1` and resolving "today" succeeds with the ordinal `now`,
each rendered canonically: the two dates differ by exactly one calendar
day. -/
theorem c9_tomorrow_is_today_plus_one (fuzzy : PyStr → Option Nat) (now : Nat) :
    extract_date_from_natural_language fuzzy now (("tomorrow").data)
        = DateRes.ok (fmtIso (now + 1)) (fmtHuman (now + 1)) ∧
      extract_date_from_natural_language fuzzy now (("today").data)
        = DateRes.ok (fmtIso now) (fmtHuman now) :=
  ⟨rfl, rfl⟩

theorem leadsWith_length : ∀ {p s : PyStr}, leadsWith p s = true →
    p.length ≤ s.length := by
  intro p
  induction p with
  | nil => intro s _; simp
  | cons a p ih =>
    intro s h
    cases s with
    | nil => simp [leadsWith] at h
    | cons b t =>
      simp only [leadsWith, Bool.and_eq_true] at h
      simpa using ih h.2

theorem containsSub_length : ∀ {s p : PyStr}, containsSub s p = true →
    p.length ≤ s.length := by
  intro s
  induction s with
  | nil =>
    intro p h
    simp only [containsSub, List.isEmpty_iff] at h
    simp [h]
  | cons b t ih =>
    intro p h
    simp only [containsSub, Bool.or_eq_true] at h
    rcases h with h | h
    · exact leadsWith_length h
    · exact le_trans (ih h) (by simp)

/-- What the `days_ahead` adjustment guarantees: the produced ordinal bears
the requested weekday, lies strictly after today, at most 7 days ahead, and
is exactly 7 days ahead when today already bears that weekday. -/
theorem weekdayTarget_spec (now k : Nat) (hk : k < 7) :
    pyWeekday (weekdayTarget now k) = k ∧
      now < weekdayTarget now k ∧ weekdayTarget now k ≤ now + 7 ∧
      (pyWeekday now = k → weekdayTarget now k = now + 7) := by
  unfold weekdayTarget pyWeekday
  by_cases hle : ((k : Int) - (((now + 6) % 7 : Nat) : Int) ≤ 0)
  · rw [if_pos hle]
    omega
  · rw [if_neg hle]
    omega

def weekdayNamesList : List PyStr :=
  [("monday").data, ("tuesday").data, ("wednesday").data, ("thursday").data,
   ("friday").data, ("saturday").data, ("sunday").data]

/-- The ordinal chosen by the weekday rule for weekday index `k` (Monday = 0)
when no earlier rule of the chain fires. -/
theorem dateRule_weekday (t : PyStr) (now : Nat) (fz : Option Nat) (k : Nat)
    (hk : k < 7)
    (h1 : t ≠ ("today").data) (h2 : t ≠ ("tomorrow").data)
    (hw : containsSub t (("next week").data) = false)
    (hm : containsSub t (("next month").data) = false)
    (hc : containsSub t (("next ").data ++ weekdayNamesList.getD k []) = true ∨
      containsSub t (("coming ").data ++ weekdayNamesList.getD k []) = true)
    (he : ∀ j, j < k →
      containsSub t (("next ").data ++ weekdayNamesList.getD j []) = false ∧
      containsSub t (("coming ").data ++ weekdayNamesList.getD j []) = false) :
    dateRule t now fz = some (weekdayTarget now k) := by
  interval_cases k
  · have hck : containsSub t (("next monday").data) = true ∨
        containsSub t (("coming monday").data) = true := hc
    unfold dateRule
    rw [if_neg h1, if_neg h2, if_neg (by simp [hw]), if_neg (by simp [hm]),
      if_pos (by rcases hck with h | h <;> simp [h])]
  · have q0 : containsSub t (("next monday").data) = false ∧
        containsSub t (("coming monday").data) = false := he 0 (by omega)
    have hck : containsSub t (("next tuesday").data) = true ∨
        containsSub t (("coming tuesday").data) = true := hc
    unfold dateRule
    rw [if_neg h1, if_neg h2, if_neg (by simp [hw]), if_neg (by simp [hm]),
      if_neg (by simp [q0.1, q0.2]),
      if_pos (by rcases hck with h | h <;> simp [h])]
  · have q0 : containsSub t (("next monday").data) = false ∧
        containsSub t (("coming monday").data) = false := he 0 (by omega)
    have q1 : containsSub t (("next tuesday").data) = false ∧
        containsSub t (("coming tuesday").data) = false := he 1 (by omega)
    have hck : containsSub t (("next wednesday").data) = true ∨
        containsSub t (("coming wednesday").data) = true := hc
    unfold dateRule
    rw [if_neg h1, if_neg h2, if_neg (by simp [hw]), if_neg (by simp [hm]),
      if_neg (by simp [q0.1, q0.2]), if_neg (by simp [q1.1, q1.2]),
      if_pos (by rcases hck with h | h <;> simp [h])]
  · have q0 : containsSub t (("next monday").data) = false ∧
        containsSub t (("coming monday").data) = false := he 0 (by omega)
    have q1 : containsSub t (("next tuesday").data) = false ∧
        containsSub t (("coming tuesday").data) = false := he 1 (by omega)
    have q2 : containsSub t (("next wednesday").data) = false ∧
        containsSub t (("coming wednesday").data) = false := he 2 (by omega)
    have hck : containsSub t (("next thursday").data) = true ∨
        containsSub t (("coming thursday").data) = true := hc
    unfold dateRule
    rw [if_neg h1, if_neg h2, if_neg (by simp [hw]), if_neg (by simp [hm]),
      if_neg (by simp [q0.1, q0.2]), if_neg (by simp [q1.1, q1.2]),
      if_neg (by simp [q2.1, q2.2]),
      if_pos (by rcases hck with h | h <;> simp [h])]
  · have q0 : containsSub t (("next monday").data) = false ∧
        containsSub t (("coming monday").data) = false := he 0 (by omega)
    have q1 : containsSub t (("next tuesday").data) = false ∧
        containsSub t (("coming tuesday").data) = false := he 1 (by omega)
    have q2 : containsSub t (("next wednesday").data) = false ∧
        containsSub t (("coming wednesday").data) = false := he 2 (by omega)
    have q3 : containsSub t (("next thursday").data) = false ∧
        containsSub t (("coming thursday").data) = false := he 3 (by omega)
    have hck : containsSub t (("next friday").data) = true ∨
        containsSub t (("coming friday").data) = true := hc
    unfold dateRule
    rw [if_neg h1, if_neg h2, if_neg (by simp [hw]), if_neg (by simp [hm]),
      if_neg (by simp [q0.1, q0.2]), if_neg (by simp [q1.1, q1.2]),
      if_neg (by simp [q2.1, q2.2]), if_neg (by simp [q3.1, q3.2]),
      if_pos (by rcases hck with h | h <;> simp [h])]
  · have q0 : containsSub t (("next monday").data) = false ∧
        containsSub t (("coming monday").data) = false := he 0 (by omega)
    have q1 : containsSub t (("next tuesday").data) = false ∧
        containsSub t (("coming tuesday").data) = false := he 1 (by omega)
    have q2 : containsSub t (("next wednesday").data) = false ∧
        containsSub t (("coming wednesday").data) = false := he 2 (by omega)
    have q3 : containsSub t (("next thursday").data) = false ∧
        containsSub t (("coming thursday").data) = false := he 3 (by omega)
    have q4 : containsSub t (("next friday").data) = false ∧
        containsSub t (("coming friday").data) = false := he 4 (by omega)
    have hck : containsSub t (("next saturday").data) = true ∨
        containsSub t (("coming saturday").data) = true := hc
    unfold dateRule
    rw [if_neg h1, if_neg h2, if_neg (by simp [hw]), if_neg (by simp [hm]),
      if_neg (by simp [q0.1, q0.2]), if_neg (by simp [q1.1, q1.2]),
      if_neg (by simp [q2.1, q2.2]), if_neg (by simp [q3.1, q3.2]),
      if_neg (by simp [q4.1, q4.2]),
      if_pos (by rcases hck with h | h <;> simp [h])]
  · have q0 : containsSub t (("next monday").data) = false ∧
        containsSub t (("coming monday").data) = false := he 0 (by omega)
    have q1 : containsSub t (("next tuesday").data) = false ∧
        containsSub t (("coming tuesday").data) = false := he 1 (by omega)
    have q2 : containsSub t (("next wednesday").data) = false ∧
        containsSub t (("coming wednesday").data) = false := he 2 (by omega)
    have q3 : containsSub t (("next thursday").data) = false ∧
        containsSub t (("coming thursday").data) = false := he 3 (by omega)
    have q4 : containsSub t (("next friday").data) = false ∧
        containsSub t (("coming friday").data) = false := he 4 (by omega)
    have q5 : containsSub t (("next saturday").data) = false ∧
        containsSub t (("coming saturday").data) = false := he 5 (by omega)
    have hck : containsSub t (("next sunday").data) = true ∨
        containsSub t (("coming sunday").data) = true := hc
    unfold dateRule
    rw [if_neg h1, if_neg h2, if_neg (by simp [hw]), if_neg (by simp [hm]),
      if_neg (by simp [q0.1, q0.2]), if_neg (by simp [q1.1, q1.2]),
      if_neg (by simp [q2.1, q2.2]), if_neg (by simp [q3.1, q3.2]),
      if_neg (by simp [q4.1, q4.2]), if_neg (by simp [q5.1, q5.2]),
      if_pos (by rcases hck with h | h <;> simp [h])]

/-- C8 counterexample: on 2025-01-07 (ordinal 739258, a Tuesday), the input
"next week coming monday" contains "coming monday", yet the resolver returns
2025-01-14 (a Tuesday, via the earlier "next week" rule), not the next Monday
strictly after today, which is 2025-01-13. -/
theorem c8_counterexample :
    extract_date_from_natural_language (fun _ => none) 739258
        (("next week coming monday").data)
      = DateRes.ok (("2025-01-14").data) (("January 14, 2025").data) ∧
    containsSub (pyStrip (pyLower (("next week coming monday").data)))
        (("coming ").data ++ weekdayNamesList.getD 0 []) = true ∧
    pyWeekday 739258 = 1 ∧
    fmtIso 739265 = ("2025-01-14").data ∧ pyWeekday 739265 = 1 ∧
    pyWeekday 739264 = 0 ∧ 739258 < 739264 ∧
    fmtIso 739264 = ("2025-01-13").data ∧
    ("2025-01-14").data ≠ ("2025-01-13").data := by
  refine ⟨by decide, by decide, by decide, by decide, by decide, by decide,
    by decide, by decide, by decide⟩

/-- C8 (amended): for every weekday w (index `k`, Monday = 0) and fixed
"now", if the lowercased stripped input contains "next w" or "coming w",
does NOT contain "next week" or "next month", and contains no "next v" /
"coming v" phrase for a weekday v earlier in the Monday..Sunday chain order,
then the resolver returns the next occurrence of w strictly after today;
when today itself bears weekday w, the result is exactly 7 days later and
never today's date. -/
theorem c8_next_weekday (fuzzy : PyStr → Option Nat) (now : Nat)
    (text : PyStr) (k : Nat) (hk : k < 7)
    (hc : containsSub (pyStrip (pyLower text))
        (("next ").data ++ weekdayNamesList.getD k []) = true ∨
      containsSub (pyStrip (pyLower text))
        (("coming ").data ++ weekdayNamesList.getD k []) = true)
    (hw : containsSub (pyStrip (pyLower text)) (("next week").data) = false)
    (hm : containsSub (pyStrip (pyLower text)) (("next month").data) = false)
    (he : ∀ j, j < k →
      containsSub (pyStrip (pyLower text))
          (("next ").data ++ weekdayNamesList.getD j []) = false ∧
        containsSub (pyStrip (pyLower text))
          (("coming ").data ++ weekdayNamesList.getD j []) = false) :
    extract_date_from_natural_language fuzzy now text
        = DateRes.ok (fmtIso (weekdayTarget now k)) (fmtHuman (weekdayTarget now k)) ∧
      (pyWeekday (weekdayTarget now k) = k ∧
        now < weekdayTarget now k ∧ weekdayTarget now k ≤ now + 7 ∧
        (pyWeekday now = k → weekdayTarget now k = now + 7)) := by
  have hname : 6 ≤ (weekdayNamesList.getD k []).length := by
    interval_cases k <;> decide
  have hlen : 11 ≤ (pyStrip (pyLower text)).length := by
    rcases hc with h | h
    · have hl := containsSub_length h
      rw [List.length_append] at hl
      have h5 : (("next ").data).length = 5 := by decide
      omega
    · have hl := containsSub_length h
      rw [List.length_append] at hl
      have h7 : (("coming ").data).length = 7 := by decide
      omega
  have h1 : pyStrip (pyLower text) ≠ ("today").data := by
    intro he'
    rw [he'] at hlen
    exact absurd hlen (by decide)
  have h2 : pyStrip (pyLower text) ≠ ("tomorrow").data := by
    intro he'
    rw [he'] at hlen
    exact absurd hlen (by decide)
  refine ⟨?_, weekdayTarget_spec now k hk⟩
  unfold extract_date_from_natural_language
  rw [dateRule_weekday (pyStrip (pyLower text)) now (fuzzy text) k hk h1 h2 hw hm hc he]

/-- Witness for the amended C8 at "coming wednesday" on 2025-01-07. -/
theorem c8_next_weekday_witness :
    extract_date_from_natural_language (fun _ => none) 739258
        (("coming wednesday").data)
      = DateRes.ok (("2025-01-08").data) (("January 08, 2025").data) ∧
    pyWeekday (weekdayTarget 739258 2) = 2 ∧ 739258 < weekdayTarget 739258 2 := by
  have h := c8_next_weekday (fun _ => none) 739258 (("coming wednesday").data) 2
    (by omega) (Or.inr (by decide)) (by decide) (by decide)
    (by
      intro j hj
      interval_cases j
      · exact ⟨by decide, by decide⟩
      · exact ⟨by decide, by decide⟩)
  refine ⟨?_, h.2.1, h.2.2.1⟩
  rw [h.1]
  decide

/-! ### A small regex engine

Backtracking matcher for the two patterns the booking handler uses, with
Python `re` semantics: leftmost match, greedy quantifiers with backtracking,
word boundaries.  `fuel` bounds recursion depth; the scanner passes a fuel
that exceeds any possible depth for the given pattern and text. -/

def wordChar (c : Char) : Bool := c.isAlpha || c.isDigit || c = '_'

/-- One element of a regex: a character class, an optional character class
(`?`, greedy), a counted repetition (`{lo,}` / `+` / `{2,}`, greedy), or a
word boundary (`\b`). -/
inductive Rx where
  | cls (p : Char → Bool)
  | opt (p : Char → Bool)
  | rep (p : Char → Bool) (lo : Nat)
  | wb

mutual

/-- Match a pattern list against a prefix of `s`; `prevW` says whether the
character just before `s` is a word character.  Returns the consumed
characters. -/
def matchPats : Nat → List Rx → PyStr → Bool → Option PyStr
  | 0, _, _, _ => none
  | _ + 1, [], _, _ => some []
  | fuel + 1, .wb :: ps, s, prevW =>
    let nextW := match s with | [] => false | c :: _ => wordChar c
    if prevW != nextW then matchPats fuel ps s prevW else none
  | _ + 1, .cls _ :: _, [], _ => none
  | fuel + 1, .cls p :: ps, c :: s, _ =>
    if p c then (matchPats fuel ps s (wordChar c)).map (c :: ·) else none
  | fuel + 1, .opt p :: ps, [], prevW => matchPats fuel ps [] prevW
  | fuel + 1, .opt p :: ps, c :: s, prevW =>
    if p c then
      match matchPats fuel ps s (wordChar c) with
      | some r => some (c :: r)
      | none => matchPats fuel ps (c :: s) prevW
    else matchPats fuel ps (c :: s) prevW
  | fuel + 1, .rep p lo :: ps, s, prevW =>
    peelRep fuel p lo ps ((s.takeWhile p).reverse) (s.drop (s.takeWhile p).length) prevW

/-- Greedy backtracking for `rep`: `takenRev` is the (reversed) consumed run,
`rest` the remainder; try the continuation after the longest run first, then
give characters back one at a time, never below `lo`. -/
def peelRep : Nat → (Char → Bool) → Nat → List Rx → PyStr → PyStr → Bool → Option PyStr
  | 0, _, _, _, _, _, _ => none
  | fuel + 1, p, lo, ps, takenRev, rest, prevW =>
    if takenRev.length < lo then none
    else
      match matchPats fuel ps rest
        (match takenRev with | [] => prevW | c :: _ => wordChar c) with
      | some r => some (takenRev.reverse ++ r)
      | none =>
        match takenRev with
        | [] => none
        | c :: tr => peelRep fuel p lo ps tr (c :: rest) prevW

end

/-- Depth bound for the matcher on pattern `ps` over text `s`. -/
def rxFuel (ps : List Rx) (s : PyStr) : Nat :=
  (ps.length + 1) * (s.length + 2) + 2

/-- First (leftmost) match of `re.findall`: try each start position from the
left; at each position the greedy backtracking matcher runs. -/
def scanMatch (pats : List Rx) : PyStr → Bool → Option PyStr
  | s, prevW =>
    match matchPats (rxFuel pats s) pats s prevW with
    | some m => some m
    | none =>
      match s with
      | [] => none
      | c :: t => scanMatch pats t (wordChar c)

/-- The phone pattern `[\+\(]?[0-9][0-9\s\-\(\)]{8,}[0-9]`. -/
def phonePattern : List Rx :=
  [.opt (fun c => c = '+' || c = '('),
   .cls Char.isDigit,
   .rep (fun c => c.isDigit || isPySpace c || c = '-' || c = '(' || c = ')') 8,
   .cls Char.isDigit]

/-- The email pattern `\b[A-Za-z0-9._%+-]+@[A-Za-z0-9.-]+\.[A-Z|a-z]{2,}\b`
(the `|` inside the last class is part of the source pattern). -/
def emailPattern : List Rx :=
  [.wb,
   .rep (fun c => c.isAlpha || c.isDigit || c = '.' || c = '_' || c = '%' ||
     c = '+' || c = '-') 1,
   .cls (fun c => c = '@'),
   .rep (fun c => c.isAlpha || c.isDigit || c = '.' || c = '-') 1,
   .cls (fun c => c = '.'),
   .rep (fun c => ('A' ≤ c && c ≤ 'Z') || c = '|' || ('a' ≤ c && c ≤ 'z')) 2,
   .wb]

/-! ### The slot-filling booking handler -/

/-- The four required fields of `appointment_data`. -/
inductive Slot where
  | name | phone | email | date
deriving DecidableEq

/-- `appointment_data`: each field is `none` when the key is absent and
`some v` when present with value `v` (Python treats an absent key and an
empty-string value alike as missing). -/
structure AppointmentData where
  name : Option PyStr
  phone : Option PyStr
  email : Option PyStr
  date : Option PyStr
deriving DecidableEq

/-- `field not in appointment_data or not appointment_data[field]`. -/
def fieldMissing : Option PyStr → Bool
  | none => true
  | some v => v.isEmpty

def getField (d : AppointmentData) : Slot → Option PyStr
  | .name => d.name
  | .phone => d.phone
  | .email => d.email
  | .date => d.date

def requiredFields : List Slot := [.name, .phone, .email, .date]

def missingFields (d : AppointmentData) : List Slot :=
  requiredFields.filter (fun f => fieldMissing (getField d f))

/-- The per-turn external collaborators of the booking handler: the result of
the name-extraction completion call, the `email_validator` checker (error
carries its diagnostic), the `dateutil` fuzzy parser, and the clock. -/
structure BookEnv where
  nameResp : Except Unit PyStr
  emailCheck : PyStr → Except PyStr PyStr
  fuzzy : PyStr → Option Nat
  nowOrd : Nat

/-- `tools.validate_email_address`, over the external checker. -/
def validate_email_address (check : PyStr → Except PyStr PyStr)
    (email : PyStr) : VRes :=
  match check email with
  | .ok v => .ok v
  | .error e => .err (("Invalid email format: ").data ++ e)

def strNotFound : PyStr := ("NOT_FOUND").data

def nameAckStr (v : PyStr) : PyStr :=
  ("Got it! I").data ++ [apos] ++ ("ve recorded your name as ").data ++ v ++
    (".").data

def phoneAckStr (v : PyStr) : PyStr := ("Phone number recorded: ").data ++ v

def emailAckStr (v : PyStr) : PyStr := ("Email recorded: ").data ++ v

def dateAckStr (parsed : PyStr) : PyStr := ("Date recorded: ").data ++ parsed

def qName : PyStr := ("Could you please provide your full name?").data

def qPhone : PyStr := ("Could you please provide your phone number?").data

def qEmail : PyStr := ("Could you please provide your email address?").data

def qDate : PyStr :=
  ("When would you like to schedule your appointment? (You can say things like ").data ++
    [apos] ++ ("next Monday").data ++ [apos] ++ (", ").data ++ [apos] ++
    ("tomorrow").data ++ [apos] ++ (", ").data ++ [apos] ++ ("in 3 days").data ++
    [apos] ++ (", etc.)").data

def questionFor : Slot → PyStr
  | .name => qName
  | .phone => qPhone
  | .email => qEmail
  | .date => qDate

def optVal (o : Option PyStr) : PyStr := o.getD []

/-- The booking-confirmed summary of the all-fields-present early return. -/
def confirmedSummary (d : AppointmentData) : PyStr :=
  ("Great! I have all the information needed for your appointment:\n            Name: ").data ++
    optVal d.name ++ ("\n            Phone: ").data ++ optVal d.phone ++
    ("\n            Email: ").data ++ optVal d.email ++
    ("\n            Date: ").data ++ optVal d.date ++
    ("\n            \n            Your appointment has been successfully booked! You will receive a confirmation email shortly.\n        ").data

/-- The summary emitted when extraction completes the record this turn. -/
def finalSummary (d : AppointmentData) : PyStr :=
  ("Perfect! I have all the information needed:\n\n        Name: ").data ++
    optVal d.name ++ ("\n        Phone: ").data ++ optVal d.phone ++
    ("\n        Email: ").data ++ optVal d.email ++
    ("\n        Date: ").data ++ optVal d.date ++
    ("\n        \n        Your appointment has been successfully booked!\n        ").data

/-- Name extraction: LLM call, sentinel/length check, `validate_name`. -/
def nameStep (env : BookEnv) (d : AppointmentData) (parts : List PyStr) :
    AppointmentData × List PyStr :=
  if fieldMissing d.name then
    match env.nameResp with
    | .error _ => (d, parts)
    | .ok raw =>
      if pyStrip raw ≠ strNotFound ∧ 0 < (pyStrip raw).length then
        match validate_name (pyStrip raw) with
        | .ok v => ({ d with name := some v }, parts ++ [nameAckStr v])
        | .err _ => (d, parts)
      else (d, parts)
  else (d, parts)

/-- Phone extraction: first regex match, then `validate_phone`. -/
def phoneStep (user_input : PyStr) (d : AppointmentData) (parts : List PyStr) :
    AppointmentData × List PyStr :=
  if fieldMissing d.phone then
    match scanMatch phonePattern user_input false with
    | some m =>
      match validate_phone m with
      | .ok v => ({ d with phone := some v }, parts ++ [phoneAckStr v])
      | .err _ => (d, parts)
    | none => (d, parts)
  else (d, parts)

/-- Email extraction: first regex match, then `validate_email_address`. -/
def emailStep (env : BookEnv) (user_input : PyStr) (d : AppointmentData)
    (parts : List PyStr) : AppointmentData × List PyStr :=
  if fieldMissing d.email then
    match scanMatch emailPattern user_input false with
    | some m =>
      match validate_email_address env.emailCheck m with
      | .ok v => ({ d with email := some v }, parts ++ [emailAckStr v])
      | .err _ => (d, parts)
    | none => (d, parts)
  else (d, parts)

/-- Date extraction: the date resolver on the whole utterance. -/
def dateStep (env : BookEnv) (user_input : PyStr) (d : AppointmentData)
    (parts : List PyStr) : AppointmentData × List PyStr :=
  if fieldMissing d.date then
    match extract_date_from_natural_language env.fuzzy env.nowOrd user_input with
    | .ok value parsed => ({ d with date := some value }, parts ++ [dateAckStr parsed])
    | .err _ => (d, parts)
  else (d, parts)

/-- The four extraction blocks, in the source's fixed order
name, phone, email, date, threading `(appointment_data, response_parts)`. -/
def extractSteps (env : BookEnv) (user_input : PyStr) (d : AppointmentData) :
    AppointmentData × List PyStr :=
  dateStep env user_input
    (emailStep env user_input
      (phoneStep user_input (nameStep env d []).1 (nameStep env d []).2).1
      (phoneStep user_input (nameStep env d []).1 (nameStep env d []).2).2).1
    (emailStep env user_input
      (phoneStep user_input (nameStep env d []).1 (nameStep env d []).2).1
      (phoneStep user_input (nameStep env d []).1 (nameStep env d []).2).2).2

/-- `"\n".join`. -/
def joinParts : List PyStr → PyStr
  | [] => []
  | [x] => x
  | x :: xs => x ++ ['\n'] ++ joinParts xs

/-- The trailing question: the `if/elif` chain over the missing fields. -/
def questionChain (missing : List Slot) : PyStr :=
  if Slot.name ∈ missing then qName
  else if Slot.phone ∈ missing then qPhone
  else if Slot.email ∈ missing then qEmail
  else if Slot.date ∈ missing then qDate
  else []

/-- One slot-filling turn: `agents.handle_appointment_booking`. -/
structure TurnOut where
  appointment_data : AppointmentData
  response : PyStr
  next_action : PyStr
deriving DecidableEq

def handle_appointment_booking (env : BookEnv) (user_input : PyStr)
    (data : AppointmentData) : TurnOut :=
  if (missingFields data).isEmpty then
    { appointment_data := data, response := confirmedSummary data,
      next_action := ("complete").data }
  else
    if !(missingFields (extractSteps env user_input data).1).isEmpty then
      { appointment_data := (extractSteps env user_input data).1,
        response :=
          (if (extractSteps env user_input data).2.isEmpty then []
            else joinParts (extractSteps env user_input data).2 ++ ("\n\n").data) ++
          questionChain (missingFields (extractSteps env user_input data).1),
        next_action := ("continue").data }
    else
      { appointment_data := (extractSteps env user_input data).1,
        response := finalSummary (extractSteps env user_input data).1,
        next_action := ("complete").data }

/-- C2: when all four fields are already present and non-empty at the start
of a slot-filling turn, the turn returns the booking-confirmed summary,
signals completion, and leaves `appointment_data` exactly unchanged; the
result is independent of the utterance and of every external service, so no
extraction is attempted. -/
theorem c2_complete_record_terminal (d : AppointmentData)
    (h : (missingFields d).isEmpty = true) (env1 env2 : BookEnv)
    (u1 u2 : PyStr) :
    handle_appointment_booking env1 u1 d = handle_appointment_booking env2 u2 d ∧
    (handle_appointment_booking env1 u1 d).appointment_data = d ∧
    (handle_appointment_booking env1 u1 d).response = confirmedSummary d ∧
    (handle_appointment_booking env1 u1 d).next_action = ("complete").data := by
  unfold handle_appointment_booking
  rw [if_pos h, if_pos h]
  exact ⟨rfl, rfl, rfl, rfl⟩

/-- Witness for C2 on a concrete completed record. -/
theorem c2_complete_record_terminal_witness :
    (missingFields ⟨some ("John Doe").data, some ("5551234567").data,
        some ("john.doe@example.com").data, some ("2025-01-14").data⟩).isEmpty
      = true ∧
    (handle_appointment_booking
        ⟨Except.error (), fun _ => Except.error [], fun _ => none, 739258⟩
        (("hello").data)
        ⟨some ("John Doe").data, some ("5551234567").data,
          some ("john.doe@example.com").data,
          some ("2025-01-14").data⟩).appointment_data
      = ⟨some ("John Doe").data, some ("5551234567").data,
          some ("john.doe@example.com").data, some ("2025-01-14").data⟩ ∧
    (handle_appointment_booking
        ⟨Except.error (), fun _ => Except.error [], fun _ => none, 739258⟩
        (("hello").data)
        ⟨some ("John Doe").data, some ("5551234567").data,
          some ("john.doe@example.com").data,
          some ("2025-01-14").data⟩).next_action = ("complete").data := by
  refine ⟨by decide, ?_, ?_⟩
  · exact (c2_complete_record_terminal _ (by decide) _
      ⟨Except.error (), fun _ => Except.error [], fun _ => none, 739258⟩ _
      (("hello").data)).2.1
  · exact (c2_complete_record_terminal _ (by decide) _
      ⟨Except.error (), fun _ => Except.error [], fun _ => none, 739258⟩ _
      (("hello").data)).2.2.2

/-! Step lemmas: each extraction block touches only its own field, and only
when that field is missing. -/

theorem nameStep_phone (env : BookEnv) (d : AppointmentData) (ps : List PyStr) :
    (nameStep env d ps).1.phone = d.phone := by
  unfold nameStep
  repeat' split
  all_goals rfl

theorem nameStep_email (env : BookEnv) (d : AppointmentData) (ps : List PyStr) :
    (nameStep env d ps).1.email = d.email := by
  unfold nameStep
  repeat' split
  all_goals rfl

theorem nameStep_date (env : BookEnv) (d : AppointmentData) (ps : List PyStr) :
    (nameStep env d ps).1.date = d.date := by
  unfold nameStep
  repeat' split
  all_goals rfl

theorem nameStep_keep (env : BookEnv) (d : AppointmentData) (ps : List PyStr)
    (h : fieldMissing d.name = false) : (nameStep env d ps).1.name = d.name := by
  unfold nameStep
  rw [if_neg (by simp [h])]

theorem phoneStep_name (u : PyStr) (d : AppointmentData) (ps : List PyStr) :
    (phoneStep u d ps).1.name = d.name := by
  unfold phoneStep
  repeat' split
  all_goals rfl

theorem phoneStep_email (u : PyStr) (d : AppointmentData) (ps : List PyStr) :
    (phoneStep u d ps).1.email = d.email := by
  unfold phoneStep
  repeat' split
  all_goals rfl

theorem phoneStep_date (u : PyStr) (d : AppointmentData) (ps : List PyStr) :
    (phoneStep u d ps).1.date = d.date := by
  unfold phoneStep
  repeat' split
  all_goals rfl

theorem phoneStep_keep (u : PyStr) (d : AppointmentData) (ps : List PyStr)
    (h : fieldMissing d.phone = false) : (phoneStep u d ps).1.phone = d.phone := by
  unfold phoneStep
  rw [if_neg (by simp [h])]

theorem emailStep_name (env : BookEnv) (u : PyStr) (d : AppointmentData)
    (ps : List PyStr) : (emailStep env u d ps).1.name = d.name := by
  unfold emailStep
  repeat' split
  all_goals rfl

theorem emailStep_phone (env : BookEnv) (u : PyStr) (d : AppointmentData)
    (ps : List PyStr) : (emailStep env u d ps).1.phone = d.phone := by
  unfold emailStep
  repeat' split
  all_goals rfl

theorem emailStep_date (env : BookEnv) (u : PyStr) (d : AppointmentData)
    (ps : List PyStr) : (emailStep env u d ps).1.date = d.date := by
  unfold emailStep
  repeat' split
  all_goals rfl

theorem emailStep_keep (env : BookEnv) (u : PyStr) (d : AppointmentData)
    (ps : List PyStr) (h : fieldMissing d.email = false) :
    (emailStep env u d ps).1.email = d.email := by
  unfold emailStep
  rw [if_neg (by simp [h])]

theorem dateStep_name (env : BookEnv) (u : PyStr) (d : AppointmentData)
    (ps : List PyStr) : (dateStep env u d ps).1.name = d.name := by
  unfold dateStep
  repeat' split
  all_goals rfl

theorem dateStep_phone (env : BookEnv) (u : PyStr) (d : AppointmentData)
    (ps : List PyStr) : (dateStep env u d ps).1.phone = d.phone := by
  unfold dateStep
  repeat' split
  all_goals rfl

theorem dateStep_email (env : BookEnv) (u : PyStr) (d : AppointmentData)
    (ps : List PyStr) : (dateStep env u d ps).1.email = d.email := by
  unfold dateStep
  repeat' split
  all_goals rfl

theorem dateStep_keep (env : BookEnv) (u : PyStr) (d : AppointmentData)
    (ps : List PyStr) (h : fieldMissing d.date = false) :
    (dateStep env u d ps).1.date = d.date := by
  unfold dateStep
  rw [if_neg (by simp [h])]

theorem extractSteps_keep_name (env : BookEnv) (u : PyStr) (d : AppointmentData)
    (h : fieldMissing d.name = false) : (extractSteps env u d).1.name = d.name := by
  unfold extractSteps
  rw [dateStep_name, emailStep_name, phoneStep_name, nameStep_keep env d [] h]

theorem extractSteps_keep_phone (env : BookEnv) (u : PyStr) (d : AppointmentData)
    (h : fieldMissing d.phone = false) :
    (extractSteps env u d).1.phone = d.phone := by
  unfold extractSteps
  rw [dateStep_phone, emailStep_phone,
    phoneStep_keep u _ _ (by rw [nameStep_phone]; exact h), nameStep_phone]

theorem extractSteps_keep_email (env : BookEnv) (u : PyStr) (d : AppointmentData)
    (h : fieldMissing d.email = false) :
    (extractSteps env u d).1.email = d.email := by
  unfold extractSteps
  rw [dateStep_email,
    emailStep_keep env u _ _ (by rw [phoneStep_email, nameStep_email]; exact h),
    phoneStep_email, nameStep_email]

theorem extractSteps_keep_date (env : BookEnv) (u : PyStr) (d : AppointmentData)
    (h : fieldMissing d.date = false) : (extractSteps env u d).1.date = d.date := by
  unfold extractSteps
  rw [dateStep_keep env u _ _
      (by rw [emailStep_date, phoneStep_date, nameStep_date]; exact h),
    emailStep_date, phoneStep_date, nameStep_date]

/-- The turn's resulting record is `d` itself on the early return, and the
extraction result otherwise. -/
theorem handle_data_eq (env : BookEnv) (u : PyStr) (d : AppointmentData) :
    (handle_appointment_booking env u d).appointment_data = d ∨
      (handle_appointment_booking env u d).appointment_data
        = (extractSteps env u d).1 := by
  unfold handle_appointment_booking
  split
  · exact Or.inl rfl
  · split
    · exact Or.inr rfl
    · exact Or.inr rfl

/-- C5: a field of `appointment_data` that is present and non-empty before a
slot-filling turn has exactly the same value after the turn, for every
environment and utterance: recorded values are never overwritten, cleared or
deleted. -/
theorem c5_recorded_fields_stable (env : BookEnv) (u : PyStr)
    (d : AppointmentData) :
    (fieldMissing d.name = false →
      (handle_appointment_booking env u d).appointment_data.name = d.name) ∧
    (fieldMissing d.phone = false →
      (handle_appointment_booking env u d).appointment_data.phone = d.phone) ∧
    (fieldMissing d.email = false →
      (handle_appointment_booking env u d).appointment_data.email = d.email) ∧
    (fieldMissing d.date = false →
      (handle_appointment_booking env u d).appointment_data.date = d.date) := by
  rcases handle_data_eq env u d with h | h <;> rw [h]
  · exact ⟨fun _ => rfl, fun _ => rfl, fun _ => rfl, fun _ => rfl⟩
  · exact ⟨extractSteps_keep_name env u d, extractSteps_keep_phone env u d,
      extractSteps_keep_email env u d, extractSteps_keep_date env u d⟩

/-- Witness for C5: a recorded name survives a turn whose utterance contains
new data for other fields. -/
theorem c5_recorded_fields_stable_witness :
    fieldMissing (some (("Alice").data) : Option PyStr) = false ∧
    (handle_appointment_booking
        ⟨Except.error (), fun _ => Except.error [], fun _ => none, 739258⟩
        (("phone 555-123-4567 tomorrow").data)
        ⟨some (("Alice").data), none, none, none⟩).appointment_data.name
      = some (("Alice").data) := by
  refine ⟨by decide, ?_⟩
  exact (c5_recorded_fields_stable
    ⟨Except.error (), fun _ => Except.error [], fun _ => none, 739258⟩
    (("phone 555-123-4567 tomorrow").data)
    ⟨some (("Alice").data), none, none, none⟩).1 (by decide)

/-- `missingFields` written out by cases on the four presence flags. -/
theorem missingFields_explicit (d : AppointmentData) :
    missingFields d =
      (if fieldMissing d.name then [Slot.name] else []) ++
      (if fieldMissing d.phone then [Slot.phone] else []) ++
      (if fieldMissing d.email then [Slot.email] else []) ++
      (if fieldMissing d.date then [Slot.date] else []) := by
  unfold missingFields requiredFields
  cases hn : fieldMissing d.name <;> cases hp : fieldMissing d.phone <;>
    cases he : fieldMissing d.email <;> cases hd : fieldMissing d.date <;>
    simp [List.filter, getField, hn, hp, he, hd]

/-- The date-rule chain falls through to the fuzzy parser on the C4
utterance: no fixed rule matches it. -/
theorem dateRule_c4_utterance (now : Nat) (fz : Option Nat) :
    dateRule (pyStrip (pyLower
        (("Email is john.doe@example.com and phone 555-123-4567").data))) now fz
      = fz := by
  unfold dateRule
  rw [if_neg (by decide), if_neg (by decide), if_neg (by decide),
    if_neg (by decide), if_neg (by decide), if_neg (by decide),
    if_neg (by decide), if_neg (by decide), if_neg (by decide),
    if_neg (by decide), if_neg (by decide), if_neg (by decide)]

/-- C4: on the utterance "Email is john.doe@example.com and phone
555-123-4567" applied to a record holding only the name "John Doe", with the
external email checker accepting the address (with a non-empty normalized
value) and the fuzzy date parse failing, the single turn records both the
email and the phone, only the date remains missing, and the turn's question
asks for the date. -/
theorem c4_email_and_phone_in_one_turn (env : BookEnv) (v : PyStr)
    (hv : env.emailCheck (("john.doe@example.com").data) = Except.ok v)
    (hvne : v ≠ [])
    (hf : env.fuzzy
      (("Email is john.doe@example.com and phone 555-123-4567").data) = none) :
    handle_appointment_booking env
        (("Email is john.doe@example.com and phone 555-123-4567").data)
        ⟨some (("John Doe").data), none, none, none⟩
      = { appointment_data := ⟨some (("John Doe").data),
            some (("5551234567").data), some v, none⟩,
          response := phoneAckStr (("5551234567").data) ++ ['\n'] ++
            emailAckStr v ++ ("\n\n").data ++ qDate,
          next_action := ("continue").data } ∧
    missingFields ⟨some (("John Doe").data), some (("5551234567").data),
        some v, none⟩ = [Slot.date] := by
  have hvE : v.isEmpty = false := by
    cases v with
    | nil => exact absurd rfl hvne
    | cons a t => rfl
  have h3 : fieldMissing (some v) = false := by simp [fieldMissing, hvE]
  have hmiss : missingFields ⟨some (("John Doe").data),
      some (("5551234567").data), some v, none⟩ = [Slot.date] := by
    rw [missingFields_explicit]
    dsimp only
    rw [h3]
    rfl
  have hn : nameStep env ⟨some (("John Doe").data), none, none, none⟩ []
      = (⟨some (("John Doe").data), none, none, none⟩, []) := by
    unfold nameStep
    dsimp only
    rw [if_neg (by decide)]
  have hp : phoneStep (("Email is john.doe@example.com and phone 555-123-4567").data)
      ⟨some (("John Doe").data), none, none, none⟩ []
      = (⟨some (("John Doe").data), some (("5551234567").data), none, none⟩,
          [phoneAckStr (("5551234567").data)]) := by
    decide
  have hem : emailStep env
      (("Email is john.doe@example.com and phone 555-123-4567").data)
      ⟨some (("John Doe").data), some (("5551234567").data), none, none⟩
      [phoneAckStr (("5551234567").data)]
      = (⟨some (("John Doe").data), some (("5551234567").data), some v, none⟩,
          [phoneAckStr (("5551234567").data), emailAckStr v]) := by
    unfold emailStep
    dsimp only
    rw [if_pos (show fieldMissing (none : Option PyStr) = true from rfl),
      show scanMatch emailPattern
        (("Email is john.doe@example.com and phone 555-123-4567").data) false
        = some (("john.doe@example.com").data) from by decide]
    unfold validate_email_address
    dsimp only
    rw [hv]
    rfl
  have hdt : dateStep env
      (("Email is john.doe@example.com and phone 555-123-4567").data)
      ⟨some (("John Doe").data), some (("5551234567").data), some v, none⟩
      [phoneAckStr (("5551234567").data), emailAckStr v]
      = (⟨some (("John Doe").data), some (("5551234567").data), some v, none⟩,
          [phoneAckStr (("5551234567").data), emailAckStr v]) := by
    unfold dateStep
    dsimp only
    rw [if_pos (show fieldMissing (none : Option PyStr) = true from rfl)]
    unfold extract_date_from_natural_language
    rw [dateRule_c4_utterance, hf]
  have hex : extractSteps env
      (("Email is john.doe@example.com and phone 555-123-4567").data)
      ⟨some (("John Doe").data), none, none, none⟩
      = (⟨some (("John Doe").data), some (("5551234567").data), some v, none⟩,
          [phoneAckStr (("5551234567").data), emailAckStr v]) := by
    unfold extractSteps
    rw [hn]
    dsimp only
    rw [hp]
    dsimp only
    rw [hem]
    dsimp only
    rw [hdt]
  refine ⟨?_, hmiss⟩
  unfold handle_appointment_booking
  rw [if_neg (by decide), hex]
  dsimp only
  rw [hmiss, if_pos (by decide)]
  rfl

/-! ### C3: one question per turn, first missing field first -/

def fieldRank : Slot → Nat
  | .name => 0
  | .phone => 1
  | .email => 2
  | .date => 3

theorem missingFields_sorted (d : AppointmentData) :
    (missingFields d).Pairwise (fun a b => fieldRank a < fieldRank b) := by
  unfold missingFields requiredFields
  exact List.Pairwise.filter _ (by decide)

/-- On a rank-sorted missing list, the `if/elif` question chain asks exactly
for the head, i.e. the first missing field in priority order. -/
theorem questionChain_cons (f : Slot) (rest : List Slot)
    (hsort : ∀ g ∈ rest, fieldRank f < fieldRank g) :
    questionChain (f :: rest) = questionFor f := by
  cases f with
  | name => simp [questionChain, questionFor]
  | phone =>
    have hn : Slot.name ∉ rest := fun hmem => by
      have := hsort _ hmem
      simp [fieldRank] at this
    simp [questionChain, questionFor, hn]
  | email =>
    have hn : Slot.name ∉ rest := fun hmem => by
      have := hsort _ hmem
      simp [fieldRank] at this
    have hp : Slot.phone ∉ rest := fun hmem => by
      have := hsort _ hmem
      simp [fieldRank] at this
    simp [questionChain, questionFor, hn, hp]
  | date =>
    have hn : Slot.name ∉ rest := fun hmem => by
      have := hsort _ hmem
      simp [fieldRank] at this
    have hp : Slot.phone ∉ rest := fun hmem => by
      have := hsort _ hmem
      simp [fieldRank] at this
    have he : Slot.email ∉ rest := fun hmem => by
      have := hsort _ hmem
      simp [fieldRank] at this
    simp [questionChain, questionFor, hn, hp, he]

theorem count_zero_of_all {v : PyStr} (p : Char → Bool) (hv : v.all p = true)
    (hq : p '?' = false) : v.count '?' = 0 := by
  rw [List.count_eq_zero]
  intro hx
  have := List.all_eq_true.mp hv _ hx
  rw [hq] at this
  exact absurd this (by simp)

theorem validate_name_ok_val {s v : PyStr} (h : validate_name s = VRes.ok v) :
    v = pyStrip s ∧ s.all nameClassChar = true := by
  unfold validate_name at h
  split at h
  · exact absurd h (by simp)
  · split at h
    · exact absurd h (by simp)
    · rename_i h1 h2
      injection h with h
      have h2' : nameRegexAccepts s = true := by
        revert h2
        cases nameRegexAccepts s <;> simp
      rw [nameRegex_eq, Bool.and_eq_true] at h2'
      exact ⟨h.symm, h2'.2⟩

theorem nameAck_count {s v : PyStr} (h : validate_name s = VRes.ok v) :
    (nameAckStr v).count '?' = 0 := by
  obtain ⟨hv, hall⟩ := validate_name_ok_val h
  have hvc : v.count '?' = 0 := by
    rw [hv]
    exact count_zero_of_all nameClassChar (all_pyStrip hall) (by decide)
  unfold nameAckStr
  repeat rw [List.count_append]
  rw [hvc]
  decide

theorem validate_phone_ok_val {s v : PyStr} (h : validate_phone s = VRes.ok v) :
    v.all Char.isDigit = true := by
  unfold validate_phone at h
  split at h
  · exact absurd h (by simp)
  · rename_i h1
    split at h
    · exact absurd h (by simp)
    · injection h with h
      have h1' : pyIsDigitStr (cleanPhone s) = true := by
        revert h1
        cases pyIsDigitStr (cleanPhone s) <;> simp
      unfold pyIsDigitStr at h1'
      rw [Bool.and_eq_true] at h1'
      rw [← h]
      exact h1'.2

theorem phoneAck_count {s v : PyStr} (h : validate_phone s = VRes.ok v) :
    (phoneAckStr v).count '?' = 0 := by
  have hvc : v.count '?' = 0 :=
    count_zero_of_all Char.isDigit (validate_phone_ok_val h) (by decide)
  unfold phoneAckStr
  rw [List.count_append, hvc]
  decide

theorem digitChar_digit (n : Nat) : (digitChar n).isDigit = true := by
  unfold digitChar
  split <;> decide

theorem natDigitsGo_all : ∀ (fuel n : Nat),
    (natDigitsGo fuel n).all Char.isDigit = true := by
  intro fuel
  induction fuel with
  | zero => intro n; rfl
  | succ f ih =>
    intro n
    unfold natDigitsGo
    split
    · simp [digitChar_digit]
    · rw [List.all_append]
      simp [ih, digitChar_digit]

theorem padZero_digits_count (w n : Nat) :
    (padZero w (natDigits n)).count '?' = 0 := by
  unfold padZero
  rw [List.count_append]
  have h1 : (List.replicate (w - (natDigits n).length) '0').count '?' = 0 := by
    rw [List.count_eq_zero]
    intro hx
    rw [List.mem_replicate] at hx
    exact absurd hx.2 (by decide)
  have h2 : (natDigits n).count '?' = 0 :=
    count_zero_of_all Char.isDigit (natDigitsGo_all _ _) (by decide)
  rw [h1, h2]

theorem monthName_count (i : Nat) : (monthNames.getD i []).count '?' = 0 := by
  rw [List.getD_eq_getElem?_getD]
  cases h : monthNames[i]? with
  | none => rfl
  | some s =>
    have hs : s ∈ monthNames := List.getElem?_mem h
    have : ∀ x ∈ monthNames, x.count '?' = 0 := by decide
    simpa using this s hs

theorem fmtHuman_count (o : Nat) : (fmtHuman o).count '?' = 0 := by
  unfold fmtHuman
  repeat rw [List.count_append]
  rw [monthName_count, padZero_digits_count, padZero_digits_count]
  decide

theorem dateAck_count {fz : PyStr → Option Nat} {now : Nat} {u value parsed : PyStr}
    (h : extract_date_from_natural_language fz now u = DateRes.ok value parsed) :
    (dateAckStr parsed).count '?' = 0 := by
  unfold extract_date_from_natural_language at h
  cases hdr : dateRule (pyStrip (pyLower u)) now (fz u) with
  | none => rw [hdr] at h; exact absurd h (by simp)
  | some o =>
    rw [hdr] at h
    injection h with h1 h2
    unfold dateAckStr
    rw [List.count_append, ← h2, fmtHuman_count]
    decide

theorem nameStep_parts_count (env : BookEnv) (d : AppointmentData)
    (ps : List PyStr) (hps : ∀ x ∈ ps, x.count '?' = 0) :
    ∀ x ∈ (nameStep env d ps).2, x.count '?' = 0 := by
  unfold nameStep
  split
  · split
    · exact hps
    · split
      · split
        · rename_i hval
          intro x hx
          rw [List.mem_append, List.mem_singleton] at hx
          rcases hx with hx | hx
          · exact hps x hx
          · subst hx
            exact nameAck_count hval
        · exact hps
      · exact hps
  · exact hps

theorem phoneStep_parts_count (u : PyStr) (d : AppointmentData)
    (ps : List PyStr) (hps : ∀ x ∈ ps, x.count '?' = 0) :
    ∀ x ∈ (phoneStep u d ps).2, x.count '?' = 0 := by
  unfold phoneStep
  split
  · split
    · split
      · rename_i hval
        intro x hx
        rw [List.mem_append, List.mem_singleton] at hx
        rcases hx with hx | hx
        · exact hps x hx
        · subst hx
          exact phoneAck_count hval
      · exact hps
    · exact hps
  · exact hps

theorem emailStep_parts_count (env : BookEnv) (u : PyStr) (d : AppointmentData)
    (ps : List PyStr)
    (hq : ∀ s v, env.emailCheck s = Except.ok v → v.count '?' = 0)
    (hps : ∀ x ∈ ps, x.count '?' = 0) :
    ∀ x ∈ (emailStep env u d ps).2, x.count '?' = 0 := by
  unfold emailStep validate_email_address
  split
  · split
    · rename_i m hm
      split
      · rename_i v hval
        intro x hx
        rw [List.mem_append, List.mem_singleton] at hx
        rcases hx with hx | hx
        · exact hps x hx
        · subst hx
          cases hchk : env.emailCheck m with
          | ok w =>
            rw [hchk] at hval
            injection hval with hw
            unfold emailAckStr
            rw [List.count_append, ← hw, hq m w hchk]
            decide
          | error e =>
            rw [hchk] at hval
            exact absurd hval (by simp)
      · exact hps
    · exact hps
  · exact hps

theorem dateStep_parts_count (env : BookEnv) (u : PyStr) (d : AppointmentData)
    (ps : List PyStr) (hps : ∀ x ∈ ps, x.count '?' = 0) :
    ∀ x ∈ (dateStep env u d ps).2, x.count '?' = 0 := by
  unfold dateStep
  split
  · split
    · rename_i value parsed hval
      intro x hx
      rw [List.mem_append, List.mem_singleton] at hx
      rcases hx with hx | hx
      · exact hps x hx
      · subst hx
        exact dateAck_count hval
    · exact hps
  · exact hps

theorem extractSteps_parts_count (env : BookEnv) (u : PyStr)
    (d : AppointmentData)
    (hq : ∀ s v, env.emailCheck s = Except.ok v → v.count '?' = 0) :
    ∀ x ∈ (extractSteps env u d).2, x.count '?' = 0 := by
  unfold extractSteps
  exact dateStep_parts_count env u _ _
    (emailStep_parts_count env u _ _ hq
      (phoneStep_parts_count u _ _
        (nameStep_parts_count env d [] (by intro x hx; cases hx))))

theorem joinParts_count : ∀ ps : List PyStr, (∀ x ∈ ps, x.count '?' = 0) →
    (joinParts ps).count '?' = 0 := by
  intro ps
  induction ps with
  | nil => intro _; rfl
  | cons x xs ih =>
    intro h
    cases xs with
    | nil => exact h x (by simp)
    | cons y ys =>
      have h1 := h x (by simp)
      have h2 : (joinParts (y :: ys)).count '?' = 0 :=
        ih (fun z hz => h z (by simp [hz]))
      show (x ++ ['\n'] ++ joinParts (y :: ys)).count '?' = 0
      repeat rw [List.count_append]
      rw [h1, h2]
      decide

/-- C3: whenever at least one field is still missing after a turn's
extraction, the turn signals "continue" and its response is a '?'-free
prefix followed by exactly the one question for the first missing field in
the fixed priority order name > phone > email > date (the whole response
contains exactly one question mark), provided the external email checker
emits no question marks. -/
theorem c3_single_question_priority (env : BookEnv) (u : PyStr)
    (d : AppointmentData)
    (hq : ∀ s v, env.emailCheck s = Except.ok v → v.count '?' = 0)
    (h : missingFields
      (handle_appointment_booking env u d).appointment_data ≠ []) :
    (handle_appointment_booking env u d).next_action = ("continue").data ∧
    ∃ f rest pre,
      missingFields (handle_appointment_booking env u d).appointment_data
          = f :: rest ∧
      (∀ g ∈ rest, fieldRank f < fieldRank g) ∧
      (handle_appointment_booking env u d).response = pre ++ questionFor f ∧
      pre.count '?' = 0 ∧ (questionFor f).count '?' = 1 ∧
      (handle_appointment_booking env u d).response.count '?' = 1 := by
  by_cases h0 : (missingFields d).isEmpty = true
  · exfalso
    apply h
    unfold handle_appointment_booking
    rw [if_pos h0]
    exact List.isEmpty_iff.mp h0
  · have hd2 : (handle_appointment_booking env u d).appointment_data
        = (extractSteps env u d).1 := by
      unfold handle_appointment_booking
      rw [if_neg h0]
      split <;> rfl
    rw [hd2] at h ⊢
    have hne : (missingFields (extractSteps env u d).1).isEmpty = false := by
      cases hmf : missingFields (extractSteps env u d).1 with
      | nil => exact absurd hmf h
      | cons a l => rfl
    have hresp : (handle_appointment_booking env u d).response =
        (if (extractSteps env u d).2.isEmpty then []
          else joinParts (extractSteps env u d).2 ++ ("\n\n").data) ++
          questionChain (missingFields (extractSteps env u d).1) := by
      unfold handle_appointment_booking
      rw [if_neg h0, if_pos (by rw [hne]; rfl)]
    have hact : (handle_appointment_booking env u d).next_action
        = ("continue").data := by
      unfold handle_appointment_booking
      rw [if_neg h0, if_pos (by rw [hne]; rfl)]
    obtain ⟨f, rest, hmf⟩ : ∃ f rest,
        missingFields (extractSteps env u d).1 = f :: rest := by
      cases hmf : missingFields (extractSteps env u d).1 with
      | nil => exact absurd hmf h
      | cons a l => exact ⟨a, l, rfl⟩
    have hsort : ∀ g ∈ rest, fieldRank f < fieldRank g := by
      have hp := missingFields_sorted (extractSteps env u d).1
      rw [hmf] at hp
      exact (List.pairwise_cons.mp hp).1
    have hqc : questionChain (missingFields (extractSteps env u d).1)
        = questionFor f := by
      rw [hmf]
      exact questionChain_cons f rest hsort
    have hparts := extractSteps_parts_count env u d hq
    have hack : (if (extractSteps env u d).2.isEmpty then ([] : PyStr)
        else joinParts (extractSteps env u d).2 ++ ("\n\n").data).count '?'
          = 0 := by
      split
      · rfl
      · rw [List.count_append, joinParts_count _ hparts]
        decide
    have hq1 : (questionFor f).count '?' = 1 := by
      cases f <;> decide
    refine ⟨hact, f, rest, _, hmf, hsort, by rw [hresp, hqc], hack, hq1, ?_⟩
    rw [hresp, hqc, List.count_append, hack, hq1]

/-- Witness for C3: empty record, utterance with nothing extractable. -/
theorem c3_single_question_priority_witness :
    missingFields (handle_appointment_booking
        ⟨Except.error (), fun _ => Except.error [], fun _ => none, 739258⟩
        (("hello").data) ⟨none, none, none, none⟩).appointment_data ≠ [] ∧
    (handle_appointment_booking
        ⟨Except.error (), fun _ => Except.error [], fun _ => none, 739258⟩
        (("hello").data) ⟨none, none, none, none⟩).next_action
      = ("continue").data := by
  refine ⟨by decide, ?_⟩
  exact (c3_single_question_priority
    ⟨Except.error (), fun _ => Except.error [], fun _ => none, 739258⟩
    (("hello").data) ⟨none, none, none, none⟩
    (fun s v hsv => Except.noConfusion hsv) (by decide)).1

/-! ### The intent classifier -/

def appointmentKeywords : List PyStr :=
  [("appointment").data, ("book").data, ("schedule").data,
   ("reservation").data, ("meeting").data]

/-- `agents.classify_intent`: `resp` is the outcome of the completion call
(`.error` = the call raised). -/
def classify_intent (resp : Except Unit PyStr) (user_input : PyStr) : PyStr :=
  match resp with
  | .error _ => ("document_query").data
  | .ok r =>
    if containsSub (pyLower (pyStrip r)) (("appointment").data) ||
        containsSub (pyLower (pyStrip r)) (("booking").data) then
      ("appointment_booking").data
    else if containsSub (pyLower (pyStrip r)) (("document").data) ||
        containsSub (pyLower (pyStrip r)) (("query").data) then
      ("document_query").data
    else if appointmentKeywords.any
        (fun k => containsSub (pyLower user_input) k) then
      ("appointment_booking").data
    else ("document_query").data

/-- C1 counterexample: when the completion call raises, the classifier
returns `document_query` even though the input contains the keyword
"schedule" — the keyword fallback is not reached from the exception
handler. -/
theorem c1_counterexample :
    classify_intent (Except.error ()) (("schedule a meeting").data)
        = ("document_query").data ∧
      appointmentKeywords.any
        (fun k => containsSub (pyLower (("schedule a meeting").data)) k)
        = true ∧
      ("document_query").data ≠ ("appointment_booking").data :=
  ⟨rfl, by decide, by decide⟩

/-- C1 (amended): the keyword fallback yields `appointment_booking` for a
keyword-bearing input only when the completion call *succeeds* with a
response matching neither parse branch; when the call raises an error, the
classifier returns `document_query`. -/
theorem c1_keyword_fallback (user_input resp : PyStr)
    (hk : appointmentKeywords.any
      (fun k => containsSub (pyLower user_input) k) = true)
    (h1 : containsSub (pyLower (pyStrip resp)) (("appointment").data) = false)
    (h2 : containsSub (pyLower (pyStrip resp)) (("booking").data) = false)
    (h3 : containsSub (pyLower (pyStrip resp)) (("document").data) = false)
    (h4 : containsSub (pyLower (pyStrip resp)) (("query").data) = false) :
    classify_intent (Except.ok resp) user_input
        = ("appointment_booking").data ∧
      classify_intent (Except.error ()) user_input
        = ("document_query").data := by
  refine ⟨?_, rfl⟩
  unfold classify_intent
  dsimp only
  rw [if_neg (by simp [h1, h2]), if_neg (by simp [h3, h4]), if_pos hk]

/-- Witness for the amended C1. -/
theorem c1_keyword_fallback_witness :
    classify_intent (Except.ok (("hmm ok").data))
        (("schedule a meeting").data) = ("appointment_booking").data :=
  (c1_keyword_fallback (("schedule a meeting").data) (("hmm ok").data)
    (by decide) (by decide) (by decide) (by decide) (by decide)).1

/-! ### The document query bridge -/

def noDocsMsg : PyStr :=
  ("No documents available to query. Please upload documents first.").data

def noRelevantMsg : PyStr :=
  ("No relevant information found in the documents for your query.").data

/-- The extraction prompt of `query_documents`. -/
def extractionPrompt (documents_content query : PyStr) : PyStr :=
  ("\n        You are an intelligent document assistant. \n        Your task is to extract and return ONLY the relevant information from the document that answers the user").data ++
    [apos] ++
    ("s query.\n\n        Document Content:\n        ").data ++
    documents_content ++
    ("\n        \n        User Query: ").data ++ query ++
    ("\n        \n        Instructions:\n        1. Carefully read and understand the user").data ++
    [apos] ++
    ("s query\n        2. Search through the entire document for information that is semantically related to the query\n        3. Extract ALL relevant sections, paragraphs, or details that answer the query\n        4. If multiple pieces of information are relevant, include them all\n        5. Preserve the original text structure and details (prices, timelines, contact info, etc.)\n        6. If no relevant information is found, respond with: \"No relevant information found\"\n        \n        Return only the extracted relevant information without adding explanations or commentary.\n").data

/-- Python `str.split(newline)`: keeps empty pieces. -/
def splitOnNL : PyStr → List PyStr
  | [] => [[]]
  | c :: t =>
    if c = '\n' then [] :: splitOnNL t
    else
      match splitOnNL t with
      | [] => [[c]]
      | l :: ls => (c :: l) :: ls

/-- Python `str.split()`: split on whitespace runs, dropping empties
(`acc` holds the current token, reversed). -/
def pySplitWsGo : PyStr → PyStr → List PyStr
  | [], acc => if acc.isEmpty then [] else [acc.reverse]
  | c :: t, acc =>
    if isPySpace c then
      if acc.isEmpty then pySplitWsGo t [] else acc.reverse :: pySplitWsGo t []
    else pySplitWsGo t (c :: acc)

def pySplitWs (s : PyStr) : List PyStr := pySplitWsGo s []

/-- `tools.query_documents`, with the completion service as a parameter
applied to the built prompt. -/
def query_documents (llm : PyStr → Except Unit PyStr)
    (query documents_content : PyStr) : PyStr :=
  if documents_content.isEmpty then noDocsMsg
  else
    match llm (extractionPrompt documents_content query) with
    | .ok raw =>
      if containsSub (pyLower (pyStrip raw))
          (("no relevant information found").data) &&
          (pyStrip raw).length < 100 then noRelevantMsg
      else pyStrip raw
    | .error _ =>
      if !((splitOnNL documents_content).filter (fun line =>
          (pySplitWs (pyLower query)).any
            (fun w => containsSub (pyLower line) w))).isEmpty then
        joinParts (((splitOnNL documents_content).filter (fun line =>
          (pySplitWs (pyLower query)).any
            (fun w => containsSub (pyLower line) w))).take 5)
      else noRelevantMsg

/-- C10: with empty `documents_content`, `query_documents` returns exactly
the fixed "no documents available" message for every query and every
completion service — the result does not depend on the service, so no
external call is observable. -/
theorem c10_empty_documents (llm : PyStr → Except Unit PyStr)
    (query : PyStr) :
    query_documents llm query [] = noDocsMsg ∧
      ∀ llm2 : PyStr → Except Unit PyStr,
        query_documents llm query [] = query_documents llm2 query [] :=
  ⟨rfl, fun _ => rfl⟩

/-- Witness for C4 with a concrete accepting email checker. -/
theorem c4_email_and_phone_in_one_turn_witness :
    (handle_appointment_booking
        ⟨Except.error (),
          fun s => if s = ("john.doe@example.com").data then Except.ok s
            else Except.error [],
          fun _ => none, 739258⟩
        (("Email is john.doe@example.com and phone 555-123-4567").data)
        ⟨some (("John Doe").data), none, none, none⟩).appointment_data
      = ⟨some (("John Doe").data), some (("5551234567").data),
          some (("john.doe@example.com").data), none⟩ ∧
    missingFields ⟨some (("John Doe").data), some (("5551234567").data),
        some (("john.doe@example.com").data), none⟩ = [Slot.date] := by
  have h := c4_email_and_phone_in_one_turn
    ⟨Except.error (),
      fun s => if s = ("john.doe@example.com").data then Except.ok s
        else Except.error [],
      fun _ => none, 739258⟩
    (("john.doe@example.com").data) (by rfl) (by decide) (by rfl)
  exact ⟨by rw [h.1], h.2⟩
